import Mathlib

/-!
# Verification of the legacy trading-console classification pipeline

A shallow embedding of `src/legacy_logic.py` (pandas pipeline: schema
normalization, per-row MACD classification, eligibility filters, weighted
scoring, table building), with theorems settling the spec's claims.

Modelling conventions:
* pandas/numpy float values are modelled as exact rationals (`ℚ`); float
  literals of the source (`2.49`, `2.5`, `100`) become the corresponding
  rationals.  The claims settled here are insensitive to binary-float
  rounding of those literals.
* A DataFrame is modelled as a list of rows.  A column held per row is a
  field of the row structure; in-place column assignment (`df[c] = ...`)
  is modelled by returning the caller-visible table state explicitly.
* Python's stable `sorted(..., reverse=True)` over the close-column
  offsets is modelled by a stable insertion sort (`sort_desc`).
-/

set_option maxRecDepth 100000

namespace LegacyTrading

/-! ## MACD engine (`compute_macd_status`, lines 59–106)

The source collects the columns whose name starts with `close`, parses the
day-offset suffix (`close` ↦ 0, `close-k` ↦ k) and sorts them by offset
descending (`reverse=True`), i.e. oldest → newest.  We abstract a close
column directly by its numeric offset; a row's close data is the list of
(offset, value) pairs in the table's column order. -/

/-- Stable insertion of `c` into a list sorted descending by `key`:
`c` goes in front of the first element whose key is ≤ its own, so elements
with equal keys keep their original relative order — the behaviour of
Python's stable `sorted(..., reverse=True)`. -/
def insert_desc {α β : Type} [LinearOrder β] (key : α → β) (c : α) : List α → List α
  | [] => [c]
  | d :: ds => if key c < key d then d :: insert_desc key c ds else c :: d :: ds

/-- Stable sort, descending by `key` (models Python's
`sorted(close_cols, key=extract_number, reverse=True)` and pandas
`sort_values(..., ascending=False)` in the regime where the latter
preserves ties; no theorem below depends on the order of ties). -/
def sort_desc {α β : Type} [LinearOrder β] (key : α → β) : List α → List α
  | [] => []
  | c :: cs => insert_desc key c (sort_desc key cs)

/-- `pandas.Series.ewm(span=s, adjust=False).mean()` recursion after the
seed: `y_t = (1-a)·y_{t-1} + a·x_t` with `a = 2/(s+1)`. -/
def ewm_rec (a : ℚ) (y : ℚ) : List ℚ → List ℚ
  | [] => []
  | x :: xs => ((1 - a) * y + a * x) :: ewm_rec a ((1 - a) * y + a * x) xs

/-- `pandas.Series.ewm(span=s, adjust=False).mean()` with `a = 2/(s+1)`:
seeded from the series' own first value (`y_0 = x_0`), then recursive. -/
def ewm (a : ℚ) : List ℚ → List ℚ
  | [] => []
  | x :: xs => x :: ewm_rec a x xs

/-- `ema12 - ema26` of the chronologically ordered closes
(spans 12 and 26: smoothing factors `2/13` and `2/27`). -/
def macd_line (closes : List ℚ) : List ℚ :=
  List.zipWith (· - ·) (ewm (2/13) closes) (ewm (2/27) closes)

/-- `signal = macd.ewm(span=9, adjust=False).mean()` (factor `2/10 = 1/5`). -/
def signal_line (closes : List ℚ) : List ℚ :=
  ewm (2/10) (macd_line closes)

/-- `hist = macd - signal`. -/
def histogram (closes : List ℚ) : List ℚ :=
  List.zipWith (· - ·) (macd_line closes) (signal_line closes)

/-- The source's classification chain (lines 93–103), evaluated on the last
two histogram samples:
`if last > 0 and prev <= 0 → Early Expansion; elif last > prev > 0 →
Expansion; elif last > 0 → Positive; else → Negative`. -/
def classify_hist (prev last : ℚ) : String :=
  if 0 < last ∧ prev ≤ 0 then "Early Expansion"
  else if prev < last ∧ 0 < prev then "Expansion"
  else if 0 < last then "Positive"
  else "Negative"

/-- The classification chain as the spec's words state it: "Early
Expansion" if the last histogram value is positive and the previous is
non-positive, "Expansion" if the last value is positive and strictly
greater than the previous, "Positive" if the last value is positive but
not greater than the previous, and "Negative" otherwise. -/
def classify_hist_spec (prev last : ℚ) : String :=
  if 0 < last ∧ prev ≤ 0 then "Early Expansion"
  else if 0 < last ∧ prev < last then "Expansion"
  else if 0 < last ∧ ¬ prev < last then "Positive"
  else "Negative"

/-- Per-row MACD state from the chronologically ordered closes:
classification of the last two histogram values (`hist.iloc[-1]`,
`hist.iloc[-2]`). -/
def classify_closes (closes : List ℚ) : String :=
  let h := histogram closes
  classify_hist (h.getD (h.length - 2) 0) (h.getD (h.length - 1) 0)

/-- Spec-side per-row MACD state: same EMA/MACD/signal/histogram pipeline
(the spec describes the identical adjust-free recursion) but with the
spec's wording of the classification branches. -/
def classify_closes_spec (closes : List ℚ) : String :=
  let h := histogram closes
  classify_hist_spec (h.getD (h.length - 2) 0) (h.getD (h.length - 1) 0)

/-- A row of the input table as the MACD engine sees it: an identifier and
the values of the close-prefixed columns, in the table's column order.
(The remaining per-row fields play no part in `compute_macd_status`.) -/
structure InRow where
  symbol : String
  closes : List ℚ
deriving DecidableEq

/-- The input table: the day-offsets of its close-prefixed columns (in
column order) plus its rows.  In a DataFrame every row carries exactly one
value per column, so a row's `closes` list has length
`closeOffsets.length`. -/
structure InTable where
  closeOffsets : List ℕ
  rows : List InRow
deriving DecidableEq

/-- `compute_macd_status` (lines 59–106): if the table has fewer than 26
close columns, every row gets the fixed fallback state `"Negative"` and no
EMA is computed; otherwise each row's closes are ordered oldest → newest
(offset descending) and classified.  The result pairs each row with its
assigned `macd_status`. -/
def compute_macd_status (t : InTable) : List (InRow × String) :=
  if t.closeOffsets.length < 26 then
    t.rows.map (fun r => (r, "Negative"))
  else
    t.rows.map (fun r =>
      (r, classify_closes ((sort_desc Prod.fst (t.closeOffsets.zip r.closes)).map Prod.snd)))

/-- Spec-side row status: order the row's closes oldest to newest, then the
spec's classification. -/
def macd_status_spec (cells : List (ℕ × ℚ)) : String :=
  classify_closes_spec ((sort_desc Prod.fst cells).map Prod.snd)

/-- The two classification chains agree on every pair of histogram values:
after the "Early Expansion" branch has failed, a positive last value forces
a positive previous value, so `last > prev > 0` coincides with
`last > prev`. -/
theorem classify_hist_eq_spec (prev last : ℚ) :
    classify_hist prev last = classify_hist_spec prev last := by
  unfold classify_hist classify_hist_spec
  by_cases hlast : 0 < last
  · by_cases hprev0 : prev ≤ 0
    · rw [if_pos (And.intro hlast hprev0), if_pos (And.intro hlast hprev0)]
    · have hprev : 0 < prev := lt_of_not_le hprev0
      rw [if_neg (fun h : 0 < last ∧ prev ≤ 0 => hprev0 h.2),
        if_neg (fun h : 0 < last ∧ prev ≤ 0 => hprev0 h.2)]
      by_cases hgt : prev < last
      · rw [if_pos (And.intro hgt hprev), if_pos (And.intro hlast hgt)]
      · rw [if_neg (fun h : prev < last ∧ 0 < prev => hgt h.1),
          if_neg (fun h : 0 < last ∧ prev < last => hgt h.2), if_pos hlast,
          if_pos (And.intro hlast hgt)]
  · have h1 : ¬ (0 < last ∧ prev ≤ 0) := fun h => hlast h.1
    have h2 : ¬ (prev < last ∧ 0 < prev) := fun h => hlast (h.2.trans h.1)
    have h4 : ¬ (0 < last ∧ prev < last) := fun h => hlast h.1
    have h5 : ¬ (0 < last ∧ ¬ prev < last) := fun h => hlast h.1
    rw [if_neg h1, if_neg h2, if_neg hlast, if_neg h1, if_neg h4, if_neg h5]

/-- C1: for every row of a table with at least 26 close columns, the
assigned `macd_status` is exactly the spec's algorithm: closes ordered
oldest → newest, EMA spans 12/26 (adjust-free recursion seeded from the
row's own series), MACD line, EMA-9 signal, histogram, and the spec's
four-way classification of the last two histogram values. -/
theorem macd_status_follows_spec (t : InTable) (h : 26 ≤ t.closeOffsets.length) :
    compute_macd_status t =
      t.rows.map (fun r => (r, macd_status_spec (t.closeOffsets.zip r.closes))) := by
  unfold compute_macd_status
  rw [if_neg (not_lt.mpr h)]
  refine List.map_congr_left (fun r _ => ?_)
  unfold macd_status_spec classify_closes classify_closes_spec
  rw [classify_hist_eq_spec]

/-- Concrete instantiation of `macd_status_follows_spec`: a table with 26
close columns (offsets 0–25) and one row of constant closes. -/
def c1_table : InTable :=
  { closeOffsets := List.range 26
    rows := [{ symbol := "AAA", closes := List.replicate 26 1 }] }

/-- Witness for C1 at `c1_table`. -/
theorem macd_status_follows_spec_witness :
    26 ≤ c1_table.closeOffsets.length ∧
      compute_macd_status c1_table =
        c1_table.rows.map (fun r => (r, macd_status_spec (c1_table.closeOffsets.zip r.closes))) :=
  ⟨by decide, macd_status_follows_spec c1_table (by decide)⟩

/-! ## C9: the under-26-closes fallback

The source's guard `len(close_cols) < 26` is a check on the table's
close-prefixed columns.  A DataFrame is rectangular — every row carries
exactly one value per close column — so a row's number of close values
equals `closeOffsets.length`; the per-row hypothesis below records that
rectangularity. -/

/-- C9: a row with fewer than 26 close values is assigned the fixed
fallback state `"Negative"` (no EMA is computed for it) and still appears,
with that fallback state, in the classified table handed to the filters
and scoring; a row with at least 26 close values gets the genuinely
computed state instead. -/
theorem insufficient_history_fallback (t : InTable) (r : InRow)
    (hmem : r ∈ t.rows) (hrect : r.closes.length = t.closeOffsets.length) :
    (r.closes.length < 26 → (r, "Negative") ∈ compute_macd_status t) ∧
      (26 ≤ r.closes.length →
        (r, classify_closes ((sort_desc Prod.fst (t.closeOffsets.zip r.closes)).map Prod.snd))
          ∈ compute_macd_status t) := by
  constructor
  · intro hlt
    unfold compute_macd_status
    rw [if_pos (hrect ▸ hlt)]
    exact List.mem_map_of_mem _ hmem
  · intro hge
    unfold compute_macd_status
    rw [if_neg (not_lt.mpr (hrect ▸ hge))]
    exact List.mem_map_of_mem _ hmem

/-- A table with only 10 close columns: every row falls back. -/
def c9_table : InTable :=
  { closeOffsets := List.range 10
    rows := [{ symbol := "BBB", closes := List.replicate 10 5 }] }

/-- Witness for C9 at `c9_table`: the short-history row is present in the
classified table with the fallback state. -/
theorem insufficient_history_fallback_witness :
    (⟨"BBB", List.replicate 10 5⟩ : InRow) ∈ c9_table.rows ∧
      (List.replicate (α := ℚ) 10 5).length < 26 ∧
      ((⟨"BBB", List.replicate 10 5⟩ : InRow), "Negative") ∈ compute_macd_status c9_table :=
  ⟨by decide, by decide,
    (insufficient_history_fallback c9_table ⟨"BBB", List.replicate 10 5⟩
      (by decide) (by decide)).1 (by decide)⟩

/-! ## C8: malformed numerics in close columns

The source converts a row's close cells with
`row[close_cols_sorted].astype(float)` (line 80).  `astype(float)` parses
numeric strings but **raises** `ValueError` on a string that does not
parse as a float; nothing is coerced to a missing value or dropped.  A
close cell is modelled as either a numeric value or a non-numeric string
(strings float() accepts are modelled as already numeric). -/

/-- A raw close cell: numeric, or a string that `float()` rejects. -/
inductive CellVal where
  | num (q : ℚ)
  | text (s : String)
deriving DecidableEq

/-- Is the cell a non-numeric string? -/
def CellVal.isText : CellVal → Bool
  | .num _ => false
  | .text _ => true

/-- `Series.astype(float)`: converts every cell, raising (modelled as
`Except.error`) at the first cell that does not parse as a float. -/
def astype_float : List CellVal → Except String (List ℚ)
  | [] => .ok []
  | .num q :: cs =>
    match astype_float cs with
    | .ok qs => .ok (q :: qs)
    | .error e => .error e
  | .text s :: _ => .error ("could not convert string to float: " ++ s)

/-- `compute_macd_status` on one row of raw close cells: the under-26
fallback is decided on the cell count first; otherwise the cells are
ordered chronologically and converted with `astype(float)`, which can
raise. -/
def compute_macd_status_cells (cells : List (ℕ × CellVal)) : Except String String :=
  if cells.length < 26 then .ok "Negative"
  else
    match astype_float ((sort_desc Prod.fst cells).map Prod.snd) with
    | .error e => .error e
    | .ok closes => .ok (classify_closes closes)

/-- Does the `Except` hold an error? -/
def isError {ε α : Type} : Except ε α → Bool
  | .error _ => true
  | .ok _ => false

/-- 26 close cells, one of them the non-numeric string "abc". -/
def c8_cells : List (ℕ × CellVal) :=
  (0, CellVal.text "abc") :: (List.range 25).map (fun i => (i + 1, CellVal.num 1))

/-- C8 counterexample: the claim says a non-numeric close value is coerced
to a missing value and dropped, and that classification never raises; on
this row of 26 close cells containing the string "abc" the source's
`astype(float)` raises, so the classifier fails instead of classifying. -/
theorem malformed_close_raises :
    compute_macd_status_cells c8_cells =
      .error "could not convert string to float: abc" := by rfl

theorem astype_float_error_iff (cs : List CellVal) :
    isError (astype_float cs) = cs.any CellVal.isText := by
  induction cs with
  | nil => rfl
  | cons c cs ih =>
    cases c with
    | num q =>
      simp only [astype_float, List.any_cons, CellVal.isText, Bool.false_or]
      rw [← ih]
      cases astype_float cs <;> rfl
    | text s => simp [astype_float, isError, CellVal.isText]

theorem any_insert_desc {α β : Type} [LinearOrder β] (key : α → β) (p : α → Bool)
    (c : α) (l : List α) :
    (insert_desc key c l).any p = (p c || l.any p) := by
  induction l with
  | nil => simp [insert_desc]
  | cons d ds ih =>
    unfold insert_desc
    by_cases h : key c < key d
    · rw [if_pos h]
      simp only [List.any_cons, ih]
      cases p c <;> cases p d <;> simp
    · rw [if_neg h]
      simp [List.any_cons]

theorem any_sort_desc {α β : Type} [LinearOrder β] (key : α → β) (p : α → Bool)
    (l : List α) : (sort_desc key l).any p = l.any p := by
  induction l with
  | nil => rfl
  | cons c cs ih => rw [sort_desc, any_insert_desc, ih, List.any_cons]

theorem any_map_eq {α β : Type} (f : α → β) (p : β → Bool) (l : List α) :
    (l.map f).any p = l.any (fun x => p (f x)) := by
  induction l with
  | nil => rfl
  | cons c cs ih => simp [List.any_cons, ih]

/-- C8 amended: non-numeric close values are *not* coerced or dropped.
When the row has at least 26 close cells, classification raises exactly
when some close cell is a non-numeric string; with fewer than 26 close
cells the fallback is assigned before any conversion, so no error can
occur. -/
theorem malformed_close_error_characterization (cells : List (ℕ × CellVal)) :
    isError (compute_macd_status_cells cells) =
      (decide (26 ≤ cells.length) && cells.any (fun c => c.2.isText)) := by
  unfold compute_macd_status_cells
  by_cases h : cells.length < 26
  · rw [if_pos h]
    have : ¬ 26 ≤ cells.length := not_le.mpr h
    simp [isError, this]
  · rw [if_neg h]
    have h26 : 26 ≤ cells.length := not_lt.mp h
    rw [decide_eq_true h26, Bool.true_and]
    have herr : isError (astype_float ((sort_desc Prod.fst cells).map Prod.snd)) =
        cells.any (fun c => c.2.isText) := by
      rw [astype_float_error_iff, any_map_eq, any_sort_desc]
    rw [← herr]
    cases astype_float ((sort_desc Prod.fst cells).map Prod.snd) <;> rfl

/-! ## Classified rows, eligibility filters (lines 113–140)

After classification the filters, scoring engines and table builders read
only the canonical per-row fields plus `macd_status`.  The `score` field
models the `score` column: `none` when the column does not exist yet,
`some q` once a builder has assigned it (`df["score"] = ...`). -/

/-- A normalized, MACD-classified row of the working table. -/
structure Row where
  symbol : String
  price : ℚ
  pct_chg : ℚ
  adr : ℚ
  liquidity : ℚ
  sector : String
  macd_status : String
  score : Option ℚ := none
deriving DecidableEq

/-- The favorable momentum states: `["Early Expansion", "Expansion",
"Positive"]` (the `isin` list of the filters). -/
def favorable_macd : List String := ["Early Expansion", "Expansion", "Positive"]

/-- `swing_filter` (lines 113–119): `liquidity >= 100`, `adr >= 2.5`,
`macd_status` favorable; returns a new (copied) subset. -/
def swing_filter (rows : List Row) : List Row :=
  rows.filter (fun r =>
    decide (100 ≤ r.liquidity) && decide (5/2 ≤ r.adr) &&
      decide (r.macd_status ∈ favorable_macd))

/-- `near_miss_filter` (lines 126–140): the concatenation of the
`adr_near` subset — `liquidity >= 100`, `adr.between(2.0, 2.49)`
(pandas `between` is inclusive at both ends), favorable `macd_status` —
and the `macd_near` subset — `liquidity >= 100`, `adr >= 2.5`,
unfavorable `macd_status`. -/
def near_miss_filter (rows : List Row) : List Row :=
  rows.filter (fun r =>
    decide (100 ≤ r.liquidity) && decide (2 ≤ r.adr ∧ r.adr ≤ 249/100) &&
      decide (r.macd_status ∈ favorable_macd)) ++
  rows.filter (fun r =>
    decide (100 ≤ r.liquidity) && decide (5/2 ≤ r.adr) &&
      !(decide (r.macd_status ∈ favorable_macd)))

/-- Sub-condition (a) of the Near-Miss claim, as the spec words it:
`liquidity ≥ 100`, `2.0 ≤ adr < 2.5`, favorable status. -/
def near_miss_claim_a (r : Row) : Prop :=
  100 ≤ r.liquidity ∧ 2 ≤ r.adr ∧ r.adr < 5/2 ∧ r.macd_status ∈ favorable_macd

instance (r : Row) : Decidable (near_miss_claim_a r) := by
  unfold near_miss_claim_a; infer_instance

/-- A row the spec's Near-Miss condition accepts but the code rejects:
`adr = 2.495` lies in `[2.0, 2.5)` yet outside `between(2.0, 2.49)`. -/
def c2_row : Row :=
  { symbol := "NM", price := 10, pct_chg := 1, adr := 499/200, liquidity := 120,
    sector := "IT", macd_status := "Positive", score := none }

/-- C2 counterexample: `c2_row` satisfies the claim's sub-condition (a)
(`liquidity ≥ 100`, `2.0 ≤ adr = 2.495 < 2.5`, favorable status), yet
`near_miss_filter` does not return it: the source's `between(2.0, 2.49)`
is inclusive at `2.49`, so adr values in `(2.49, 2.5)` fall in neither
sub-condition. -/
theorem near_miss_misses_high_adr :
    near_miss_claim_a c2_row ∧ c2_row ∉ near_miss_filter [c2_row] := by
  with_unfolding_all decide

theorem mem_near_miss_filter (rows : List Row) (r : Row) :
    r ∈ near_miss_filter rows ↔
      r ∈ rows ∧
        ((100 ≤ r.liquidity ∧ (2 ≤ r.adr ∧ r.adr ≤ 249/100) ∧
            r.macd_status ∈ favorable_macd) ∨
          (100 ≤ r.liquidity ∧ 5/2 ≤ r.adr ∧ r.macd_status ∉ favorable_macd)) := by
  unfold near_miss_filter
  simp only [List.mem_append, List.mem_filter, Bool.and_eq_true, decide_eq_true_eq,
    Bool.not_eq_true', decide_eq_false_iff_not]
  constructor
  · rintro (⟨hmem, ⟨hl, hb⟩, hf⟩ | ⟨hmem, ⟨hl, ha⟩, hnf⟩)
    · exact ⟨hmem, Or.inl ⟨hl, hb, hf⟩⟩
    · exact ⟨hmem, Or.inr ⟨hl, ha, hnf⟩⟩
  · rintro ⟨hmem, ⟨hl, hb, hf⟩ | ⟨hl, ha, hnf⟩⟩
    · exact Or.inl ⟨hmem, ⟨hl, hb⟩, hf⟩
    · exact Or.inr ⟨hmem, ⟨hl, ha⟩, hnf⟩

/-- C2 amended: membership in the Near-Miss output is exactly the union of
(a) `liquidity ≥ 100`, `2.0 ≤ adr ≤ 2.49`, favorable status, and (b)
`liquidity ≥ 100`, `adr ≥ 2.5`, unfavorable status — the upper edge of the
(a) band is the inclusive `2.49`, not `< 2.5`, so rows with adr in
`(2.49, 2.5)` qualify for neither sub-condition. -/
theorem near_miss_membership (rows : List Row) (r : Row) :
    r ∈ near_miss_filter rows ↔
      r ∈ rows ∧
        ((100 ≤ r.liquidity ∧ (2 ≤ r.adr ∧ r.adr ≤ 249/100) ∧
            r.macd_status ∈ favorable_macd) ∨
          (100 ≤ r.liquidity ∧ 5/2 ≤ r.adr ∧ r.macd_status ∉ favorable_macd)) :=
  mem_near_miss_filter rows r

/-- C3: the Swing-eligible and Near-Miss subsets are disjoint — a row
returned by `swing_filter` is never returned by `near_miss_filter`
(its `adr ≥ 2.5` excludes the `adr ≤ 2.49` band and its favorable status
excludes the unfavorable branch). -/
theorem swing_near_miss_disjoint (rows : List Row) (r : Row)
    (h : r ∈ swing_filter rows) : r ∉ near_miss_filter rows := by
  unfold swing_filter at h
  simp only [List.mem_filter, Bool.and_eq_true, decide_eq_true_eq] at h
  obtain ⟨-, ⟨-, hadr⟩, hfav⟩ := h
  rw [mem_near_miss_filter]
  rintro ⟨-, ⟨-, ⟨-, hband⟩, -⟩ | ⟨-, -, hnf⟩⟩
  · have : (5 : ℚ)/2 ≤ 249/100 := hadr.trans hband
    norm_num at this
  · exact hnf hfav

/-- A row passing the Swing hard gate. -/
def c3_row : Row :=
  { symbol := "SW", price := 50, pct_chg := 2, adr := 3, liquidity := 150,
    sector := "FIN", macd_status := "Expansion", score := none }

/-- Witness for C3 at `c3_row`. -/
theorem swing_near_miss_disjoint_witness :
    c3_row ∈ swing_filter [c3_row] ∧ c3_row ∉ near_miss_filter [c3_row] :=
  ⟨by with_unfolding_all decide,
    swing_near_miss_disjoint [c3_row] c3_row (by with_unfolding_all decide)⟩

/-! ## Scoring engines (lines 147–188)

Python's `round(x, 2)` rounds half to even; scores are modelled as exact
rationals rounded half-to-even at the second decimal. -/

/-- Floor of a rational, computed on the numerator/denominator
representation (kernel-reducible, unlike the `⌊·⌋` instance path). -/
def floorQ (q : ℚ) : ℤ := q.num.fdiv q.den

theorem floorQ_eq_floor (q : ℚ) : floorQ q = ⌊q⌋ := by
  rw [Rat.floor_def, floorQ, Int.fdiv_eq_ediv _ (by positivity)]

/-- Round to the nearest integer, ties to even — the rounding of Python's
built-in `round`. -/
def round_half_even (q : ℚ) : ℤ :=
  if q - floorQ q < 1/2 then floorQ q
  else if 1/2 < q - floorQ q then floorQ q + 1
  else if floorQ q % 2 = 0 then floorQ q else floorQ q + 1

/-- `round(x, 2)`: round half-to-even at the second decimal place. -/
def round2 (q : ℚ) : ℚ := (round_half_even (q * 100) : ℚ) / 100

theorem round_half_even_le (q : ℚ) (n : ℤ) (h : q ≤ (n : ℚ)) :
    round_half_even q ≤ n := by
  have hfle : ⌊q⌋ ≤ n := by
    have := Int.floor_le_floor h
    rwa [Int.floor_intCast] at this
  have hsucc : ¬ q - floorQ q < 1/2 → ⌊q⌋ + 1 ≤ n := by
    intro h1
    rw [floorQ_eq_floor] at h1
    have hlt : (⌊q⌋ : ℚ) < q := by linarith [not_lt.mp h1]
    have : (⌊q⌋ : ℚ) < (n : ℚ) := lt_of_lt_of_le hlt h
    exact_mod_cast Int.add_one_le_iff.mpr (by exact_mod_cast this)
  unfold round_half_even
  rw [floorQ_eq_floor]
  split_ifs with h1 h2 h3
  · exact hfle
  · exact hsucc (by rwa [floorQ_eq_floor])
  · exact hfle
  · exact hsucc (by rwa [floorQ_eq_floor])

theorem round2_le_100 (q : ℚ) (h : q ≤ 100) : round2 q ≤ 100 := by
  unfold round2
  rw [div_le_iff₀ (by norm_num : (0:ℚ) < 100)]
  have h1 : round_half_even (q * 100) ≤ (10000 : ℤ) :=
    round_half_even_le (q * 100) 10000 (by push_cast; linarith)
  calc ((round_half_even (q * 100) : ℚ)) ≤ ((10000 : ℤ) : ℚ) := by exact_mod_cast h1
    _ = 100 * 100 := by norm_num

theorem min_div_one_mul_le (x c : ℚ) (hc : 0 ≤ c) : min x 1 * c ≤ c := by
  calc min x 1 * c ≤ 1 * c := mul_le_mul_of_nonneg_right (min_le_right x 1) hc
    _ = c := one_mul c

/-- The Swing MACD bonus lookup (`macd_map.get(status, 0)`). -/
def swing_macd_bonus (s : String) : ℚ :=
  if s = "Expansion" then 30 else if s = "Positive" then 25
  else if s = "Early Expansion" then 20 else 0

/-- `compute_swing_score` (lines 147–159):
`round(min(liquidity/1000,1)*30 + min(adr/5,1)*25 + macd_bonus + 15, 2)`. -/
def compute_swing_score (r : Row) : ℚ :=
  round2 (min (r.liquidity / 1000) 1 * 30 + min (r.adr / 5) 1 * 25 +
    swing_macd_bonus r.macd_status + 15)

/-- The Positional MACD bonus lookup (`macd_map.get(status, 5)`; the map
sends "Negative" to 5 and the default is also 5). -/
def positional_macd_bonus (s : String) : ℚ :=
  if s = "Expansion" then 25 else if s = "Early Expansion" then 22
  else if s = "Positive" then 18 else if s = "Negative" then 5 else 5

/-- `compute_positional_score` (lines 161–188): scaled liquidity and adr
components, MACD bonus, suitability 30 (reduced to 10 for "Negative"),
capped at 60 for "Negative", rounded to 2 decimals. -/
def compute_positional_score (r : Row) : ℚ :=
  let liquidity_score := min (r.liquidity / 2000) 1 * 30
  let adr_score := min (r.adr / 5) 1 * 15
  let macd_score := positional_macd_bonus r.macd_status
  let suitability_score : ℚ := if r.macd_status = "Negative" then 10 else 30
  let total_score := liquidity_score + adr_score + macd_score + suitability_score
  round2 (if r.macd_status = "Negative" then min total_score 60 else total_score)

theorem swing_macd_bonus_le (s : String) : swing_macd_bonus s ≤ 30 := by
  unfold swing_macd_bonus; split_ifs <;> norm_num

theorem positional_macd_bonus_le (s : String) : positional_macd_bonus s ≤ 25 := by
  unfold positional_macd_bonus; split_ifs <;> norm_num

/-- C6: both scores are exact multiples of `1/100` (rounded to exactly two
decimal places) and bounded by the sum of their component weights:
Swing ≤ 30+25+30+15 = 100 and Positional ≤ 30+15+25+30 = 100. -/
theorem scores_two_decimals_and_bounded (r : Row) :
    (∃ k : ℤ, compute_swing_score r = (k : ℚ) / 100) ∧
      compute_swing_score r ≤ 100 ∧
      (∃ k : ℤ, compute_positional_score r = (k : ℚ) / 100) ∧
      compute_positional_score r ≤ 100 := by
  refine ⟨⟨_, rfl⟩, ?_, ⟨_, rfl⟩, ?_⟩
  · unfold compute_swing_score
    refine round2_le_100 _ ?_
    have h1 := min_div_one_mul_le (r.liquidity / 1000) 30 (by norm_num)
    have h2 := min_div_one_mul_le (r.adr / 5) 25 (by norm_num)
    have h3 := swing_macd_bonus_le r.macd_status
    linarith
  · unfold compute_positional_score
    refine round2_le_100 _ ?_
    have h1 := min_div_one_mul_le (r.liquidity / 2000) 30 (by norm_num)
    have h2 := min_div_one_mul_le (r.adr / 5) 15 (by norm_num)
    have h3 := positional_macd_bonus_le r.macd_status
    by_cases hneg : r.macd_status = "Negative"
    · rw [if_pos hneg]
      have : min (min (r.liquidity / 2000) 1 * 30 + min (r.adr / 5) 1 * 15 +
          positional_macd_bonus r.macd_status +
          (if r.macd_status = "Negative" then (10:ℚ) else 30)) 60 ≤ 60 :=
        min_le_right _ _
      linarith
    · rw [if_neg hneg, if_neg hneg]
      linarith

/-! ## Trade styles and table builders (lines 196–302)

`build_swing_table` first rebinds its local `df` to the copy returned by
`swing_filter`, so its in-place column assignments never touch the
caller's frame; `build_positional_table` assigns `df["score"]` on the
frame it was passed *before* the quality filter copies, so the caller's
frame gains/overwrites a `score` column.  Each builder therefore returns
the caller-visible state of its argument alongside the output table.
`df.sort_values("score", ascending=False)` is modelled by the stable
descending `sort_desc`; no theorem below depends on the order of ties. -/

/-- `classify_swing_trade_style` (lines 196–207). -/
def classify_swing_trade_style (r : Row) : String :=
  if r.macd_status ∈ ["Expansion", "Positive"] ∧ 5 ≤ r.adr then "Volatility Expansion"
  else if r.macd_status ∈ ["Expansion", "Early Expansion"] ∧ 2 ≤ r.pct_chg then "Breakout Setup"
  else if r.macd_status = "Early Expansion" then "Momentum Expansion"
  else "Trend Continuation"

/-- `classify_positional_trade_style` (lines 210–222).  The source reads
the row's `macd_status` and `score` columns; they are the two arguments
here. -/
def classify_positional_trade_style (macd_status : String) (score : ℚ) : String :=
  if macd_status = "Negative" then "Weak Structure"
  else if 85 ≤ score ∧ macd_status ∈ ["Expansion", "Positive"] then "Structural Trend"
  else if 75 ≤ score then "Positional Momentum"
  else "Accumulation Phase"

/-- A row of the locked Swing output table. -/
structure SwingOut where
  rank : ℕ
  symbol : String
  trade_bias : String
  trade_style : String
  macd_status : String
  score : ℚ
  price : ℚ
  pct_chg : ℚ
  adr : ℚ
  liquidity : ℚ
  sector : String
deriving DecidableEq

/-- A row of the locked Positional output table. -/
structure PosOut where
  rank : ℕ
  symbol : String
  trade_bias : String
  trade_style : String
  macd_status : String
  score : ℚ
  price : ℚ
  pct_chg : ℚ
  adr : ℚ
  liquidity : ℚ
  trend_strength : String
  portfolio_action : String
  sector : String
deriving DecidableEq

/-- `df["rank"] = df.index + 1` after `reset_index(drop=True)`: dense
1-based ranks in post-sort order. -/
def assign_ranks {α : Type} (setRank : ℕ → α → α) : ℕ → List α → List α
  | _, [] => []
  | n, o :: os => setRank n o :: assign_ranks setRank (n + 1) os

/-- The projection of a swing-eligible scored row to the locked Swing
format (`trade_bias` constant "Bullish"). -/
def swing_out_row (r : Row) : SwingOut :=
  { rank := 0, symbol := r.symbol, trade_bias := "Bullish",
    trade_style := classify_swing_trade_style r, macd_status := r.macd_status,
    score := compute_swing_score r, price := r.price, pct_chg := r.pct_chg,
    adr := r.adr, liquidity := r.liquidity, sector := r.sector }

def set_rank_swing (n : ℕ) (o : SwingOut) : SwingOut := { o with rank := n }

/-- `build_swing_table` (lines 228–253): filter (into a copy), score,
bias, style, sort by score descending, rank, project.  Returns (caller's
table state, output table); the caller's table is untouched because the
first statement rebinds `df` to `swing_filter`'s copy. -/
def build_swing_table (t : List Row) : List Row × List SwingOut :=
  (t, assign_ranks set_rank_swing 1
    (sort_desc SwingOut.score ((swing_filter t).map swing_out_row)))

/-- `df["score"] = df.apply(compute_positional_score, axis=1)`: the score
column written into the caller's frame. -/
def with_positional_score (r : Row) : Row :=
  { r with score := some (compute_positional_score r) }

/-- The Positional quality filter (lines 266–269): favorable
`macd_status` and `score >= 70`, applied after scoring. -/
def positional_quality (r : Row) : Bool :=
  decide (r.macd_status ∈ ["Expansion", "Early Expansion", "Positive"]) &&
    decide (70 ≤ r.score.getD 0)

/-- The projection of a quality-filtered scored row to the locked
Positional format, including `np.where`-derived trend strength and
portfolio action. -/
def pos_out_row (r : Row) : PosOut :=
  { rank := 0, symbol := r.symbol, trade_bias := "Bullish",
    trade_style := classify_positional_trade_style r.macd_status (r.score.getD 0),
    macd_status := r.macd_status, score := r.score.getD 0, price := r.price,
    pct_chg := r.pct_chg, adr := r.adr, liquidity := r.liquidity,
    trend_strength := if 85 ≤ r.score.getD 0 then "Strong" else "Moderate",
    portfolio_action := if 80 ≤ r.score.getD 0 then "Accumulate" else "Hold",
    sector := r.sector }

def set_rank_pos (n : ℕ) (o : PosOut) : PosOut := { o with rank := n }

/-- `build_positional_table` (lines 260–302): score **in place on the
passed frame**, quality-filter into a copy, add bias/style/strength/
action, sort by score descending, rank, project.  The first component is
the caller-visible state of the passed table after the call: every row
now carries the assigned `score` column. -/
def build_positional_table (t : List Row) : List Row × List PosOut :=
  (t.map with_positional_score,
    assign_ranks set_rank_pos 1
      (sort_desc PosOut.score
        (((t.map with_positional_score).filter positional_quality).map pos_out_row)))

/-- A fresh input row: no `score` column yet. -/
def c5_row : Row :=
  { symbol := "MUT", price := 20, pct_chg := 1, adr := 3, liquidity := 500,
    sector := "AUTO", macd_status := "Positive", score := none }

/-- C5 counterexample: the claim says no pipeline stage mutates the table
passed to it; but after `build_positional_table` the caller's table has
changed — its rows now carry a `score` column (`df["score"] = ...` on
line 263 runs on the caller's frame before any copy is taken). -/
theorem build_positional_mutates_input :
    (build_positional_table [c5_row]).1 ≠ [c5_row] := by
  with_unfolding_all decide

def clear_score (r : Row) : Row := { r with score := none }

/-- C5 amended: `swing_filter`, `near_miss_filter` and `build_swing_table`
leave the caller's table unchanged (they operate on copies), but
`build_positional_table` writes the computed Positional score into the
caller's table's `score` column; every other column of every row is
unchanged. -/
theorem pipeline_mutation_characterization (t : List Row) :
    (build_swing_table t).1 = t ∧
      (build_positional_table t).1 =
        t.map (fun r => { r with score := some (compute_positional_score r) }) ∧
      (build_positional_table t).1.map clear_score = t.map clear_score := by
  refine ⟨rfl, rfl, ?_⟩
  show (t.map with_positional_score).map clear_score = t.map clear_score
  rw [List.map_map]
  rfl

theorem mem_insert_desc {α β : Type} [LinearOrder β] (key : α → β) (c x : α)
    (l : List α) : x ∈ insert_desc key c l ↔ x = c ∨ x ∈ l := by
  induction l with
  | nil => simp [insert_desc]
  | cons d ds ih =>
    unfold insert_desc
    by_cases h : key c < key d
    · rw [if_pos h]
      simp only [List.mem_cons, ih]
      tauto
    · rw [if_neg h]
      simp only [List.mem_cons]

theorem mem_sort_desc {α β : Type} [LinearOrder β] (key : α → β) (x : α)
    (l : List α) : x ∈ sort_desc key l ↔ x ∈ l := by
  induction l with
  | nil => exact Iff.rfl
  | cons c cs ih => rw [sort_desc, mem_insert_desc, ih, List.mem_cons]

theorem mem_assign_ranks {α : Type} (setRank : ℕ → α → α) (n : ℕ) (x : α)
    (l : List α) (h : x ∈ assign_ranks setRank n l) :
    ∃ m y, y ∈ l ∧ x = setRank m y := by
  induction l generalizing n with
  | nil => cases h
  | cons c cs ih =>
    rcases List.mem_cons.mp h with h' | h'
    · exact ⟨n, c, List.mem_cons_self c cs, h'⟩
    · obtain ⟨m, y, hy, hx⟩ := ih (n + 1) h'
      exact ⟨m, y, List.mem_cons_of_mem c hy, hx⟩

theorem classify_positional_not_weak (s : String) (q : ℚ)
    (h : s ∈ ["Expansion", "Early Expansion", "Positive"]) :
    classify_positional_trade_style s q ≠ "Weak Structure" := by
  have hneg : s ≠ "Negative" := by
    simp only [List.mem_cons, List.not_mem_nil, or_false] at h
    rcases h with h | h | h <;> · rw [h]; decide
  unfold classify_positional_trade_style
  rw [if_neg hneg]
  split_ifs <;> decide

/-- C10: every row of the built Positional table has a favorable
`macd_status` and `score ≥ 70` (the quality filter runs before styling),
so the "Weak Structure" branch of the Positional trade-style classifier
is unreachable: it never appears in the output's Trade Style column. -/
theorem positional_table_no_weak_structure (t : List Row) (o : PosOut)
    (h : o ∈ (build_positional_table t).2) :
    o.macd_status ∈ ["Expansion", "Early Expansion", "Positive"] ∧
      70 ≤ o.score ∧ o.trade_style ≠ "Weak Structure" := by
  obtain ⟨m, y, hy, hx⟩ := mem_assign_ranks set_rank_pos 1 o _ h
  rw [mem_sort_desc] at hy
  obtain ⟨r, hr, hro⟩ := List.mem_map.mp hy
  obtain ⟨-, hq⟩ := List.mem_filter.mp hr
  rw [positional_quality, Bool.and_eq_true, decide_eq_true_eq, decide_eq_true_eq] at hq
  obtain ⟨hfav, hscore⟩ := hq
  have hfields : o.macd_status = r.macd_status ∧ o.score = r.score.getD 0 ∧
      o.trade_style = classify_positional_trade_style r.macd_status (r.score.getD 0) := by
    rw [hx, ← hro]
    exact ⟨rfl, rfl, rfl⟩
  obtain ⟨h1, h2, h3⟩ := hfields
  refine ⟨h1 ▸ hfav, h2 ▸ hscore, ?_⟩
  rw [h3]
  exact classify_positional_not_weak _ _ hfav

/-- A row passing the Positional quality gate with the maximal score. -/
def c10_row : Row :=
  { symbol := "POS", price := 100, pct_chg := 1, adr := 5, liquidity := 2000,
    sector := "PWR", macd_status := "Expansion", score := none }

/-- The Positional output row `build_positional_table [c10_row]` yields. -/
def c10_out : PosOut :=
  { rank := 1, symbol := "POS", trade_bias := "Bullish",
    trade_style := "Structural Trend", macd_status := "Expansion", score := 100,
    price := 100, pct_chg := 1, adr := 5, liquidity := 2000,
    trend_strength := "Strong", portfolio_action := "Accumulate", sector := "PWR" }

/-- Witness for C10 at the singleton table `[c10_row]`. -/
theorem positional_table_no_weak_structure_witness :
    c10_out ∈ (build_positional_table [c10_row]).2 ∧
      (c10_out.macd_status ∈ ["Expansion", "Early Expansion", "Positive"] ∧
        70 ≤ c10_out.score ∧ c10_out.trade_style ≠ "Weak Structure") :=
  ⟨by with_unfolding_all decide,
    positional_table_no_weak_structure [c10_row] c10_out (by with_unfolding_all decide)⟩

/-! ## Schema normalizer (`load_data`, lines 10–51)

The normalizer acts on the table's column list.  A column is its
(possibly messy) name plus a provenance tag: `some i` for the i-th
original data column, `none` for a zero-filled default column added by
the required-field loop — the tag tracks *which data* ends up under each
canonical name, which is what distinguishes "close renamed to price"
from "price filled with zeros". -/

/-- A table column: display name plus data provenance. -/
structure Col where
  name : String
  src : Option ℕ
deriving DecidableEq

/-- The column-name cleanup chain of lines 18–25:
`strip → lower → remove "%" → remove "(cr)" → spaces to underscores`. -/
def normalize_col (s : String) : String :=
  ((((s.trim).toLower).replace "%" "").replace "(cr)" "").replace " " "_"

/-- The `df.rename` mapping of lines 28–35.  Its only non-identity
entries are `liquidity_rush → liquidity` and `daily_change → pct_chg`;
the source deliberately does **not** map `close → price` (comment on
line 37) and has no entry for bare `change`. -/
def rename_col (s : String) : String :=
  if s = "liquidity_rush" then "liquidity"
  else if s = "daily_change" then "pct_chg"
  else s

/-- `df.loc[:, ~df.columns.duplicated()]`: drop duplicate column names,
keeping the first occurrence. -/
def dedup_go (seen : List String) : List Col → List Col
  | [] => []
  | c :: cs =>
    if c.name ∈ seen then dedup_go seen cs
    else c :: dedup_go (c.name :: seen) cs

/-- The six required canonical fields, in the loop order of line 44. -/
def required_cols : List String :=
  ["symbol", "adr", "liquidity", "price", "pct_chg", "sector"]

/-- `if col not in df.columns: df[col] = 0` — append a zero-filled
default column when the name is absent. -/
def ensure_one (cols : List Col) (n : String) : List Col :=
  if n ∈ cols.map Col.name then cols else cols ++ [⟨n, none⟩]

def ensure_required (cols : List Col) : List Col :=
  required_cols.foldl ensure_one cols

/-- The column-level behaviour of `load_data` (before the trailing
`compute_macd_status` call): clean every name, apply the rename map,
drop duplicates keeping the first, fill missing required fields. -/
def load_data_columns (cols : List Col) : List Col :=
  ensure_required (dedup_go []
    (cols.map (fun c => ⟨rename_col (normalize_col c.name), c.src⟩)))

/-- The synonym mapping as the claim words it: `liquidity_rush →
liquidity`, `close → price` when and only when no canonical `price`
column already exists, and `daily_change` or `change` → `pct_chg`. -/
def rename_col_claim (hasPrice : Bool) (s : String) : String :=
  if s = "liquidity_rush" then "liquidity"
  else if s = "close" ∧ hasPrice = false then "price"
  else if s = "daily_change" ∨ s = "change" then "pct_chg"
  else s

/-- Column-level normalizer behaviour claimed by the spec: clean names,
then apply `rename_col_claim` (with the close→price conditional decided
on the cleaned names), drop duplicates, fill required fields. -/
def load_data_columns_claim (cols : List Col) : List Col :=
  let cleaned := cols.map (fun c => (⟨normalize_col c.name, c.src⟩ : Col))
  let hasPrice := decide ("price" ∈ cleaned.map Col.name)
  ensure_required (dedup_go []
    (cleaned.map (fun c => ⟨rename_col_claim hasPrice c.name, c.src⟩)))

/-- A raw table with a `Close` column, no `price` column, and a `Change`
column. -/
def c7_cols : List Col := [⟨"Close", some 0⟩, ⟨"Change", some 1⟩]

/-- C7 counterexample: on `c7_cols` the claimed mapping renames the close
data column to `price` and the change data column to `pct_chg`, but the
source does neither — it leaves `close`/`change` untouched and zero-fills
fresh `price` and `pct_chg` columns instead. -/
theorem normalizer_differs_from_claim :
    load_data_columns c7_cols ≠ load_data_columns_claim c7_cols ∧
      load_data_columns c7_cols =
        [⟨"close", some 0⟩, ⟨"change", some 1⟩, ⟨"symbol", none⟩, ⟨"adr", none⟩,
          ⟨"liquidity", none⟩, ⟨"price", none⟩, ⟨"pct_chg", none⟩, ⟨"sector", none⟩] := by
  constructor
  · with_unfolding_all decide
  · with_unfolding_all decide

/-- The rename mapping as the amended claim words it: exactly the two
synonyms `liquidity_rush → liquidity` and `daily_change → pct_chg`. -/
def rename_col_amended (s : String) : String :=
  if s = "liquidity_rush" then "liquidity"
  else if s = "daily_change" then "pct_chg"
  else s

/-- C7 amended: the normalizer lower-cases and strips names, removes `%`
and the `(cr)` unit token, replaces spaces with underscores, and maps
exactly two synonyms — `liquidity_rush → liquidity` and `daily_change →
pct_chg`; `close` is never renamed to `price` (a missing `price` is
zero-filled) and bare `change` is not renamed: any name the rename map
changes is one of those two synonyms. -/
theorem normalizer_maps_two_synonyms :
    (∀ cols : List Col, load_data_columns cols =
      ensure_required (dedup_go []
        (cols.map (fun c => ⟨rename_col_amended (normalize_col c.name), c.src⟩)))) ∧
      (∀ s : String, rename_col s ≠ s →
        (s = "liquidity_rush" ∧ rename_col s = "liquidity") ∨
          (s = "daily_change" ∧ rename_col s = "pct_chg")) := by
  constructor
  · intro cols; rfl
  · intro s hs
    unfold rename_col at hs ⊢
    by_cases h1 : s = "liquidity_rush"
    · rw [if_pos h1]; exact Or.inl ⟨h1, rfl⟩
    · rw [if_neg h1] at hs ⊢
      by_cases h2 : s = "daily_change"
      · rw [if_pos h2]; exact Or.inr ⟨h2, rfl⟩
      · rw [if_neg h2] at hs; exact absurd rfl hs

/-- Witness for the amended C7 statement at the one name the rename map
changes to `liquidity`. -/
theorem normalizer_maps_two_synonyms_witness :
    rename_col "liquidity_rush" ≠ "liquidity_rush" ∧
      (("liquidity_rush" = "liquidity_rush" ∧
          rename_col "liquidity_rush" = "liquidity") ∨
        ("liquidity_rush" = "daily_change" ∧
          rename_col "liquidity_rush" = "pct_chg")) :=
  ⟨by decide, normalizer_maps_two_synonyms.2 "liquidity_rush" (by decide)⟩

end LegacyTrading
